import Mathlib

/-!
Verification of the contact-classification core of the getcontacts excerpt:
the hydrogen-bond stratifier (v2/contact_calc/stratify_hbonds.py) and the
pi-cation detector (v2/contact_calc/pi_cation.py) with its pure geometry
helpers (v2/contact_calc/contact_utils.py).

Modelling conventions, chosen to mirror the Python source exactly:
- Python strings are Lean Strings; the Python operators are re-implemented
  structurally so that the kernel can evaluate them: py_in is the substring
  test (the in operator), py_split is str.split(sep), py_join is
  sep.join(list), py_str_lt is code-point lexicographic comparison.
- Python sets are insertion-ordered duplicate-free lists; set.add is
  pyset_add (append if absent).
- Python dicts are insertion-ordered association lists; d[k].add(v) with
  prior d.setdefault is dict_set_add, membership/lookup is dict_lookup.
- Python local variables that may be read before assignment are modelled
  as Option-valued loop state; reading None raises, modelled as
  Except.error with an UnboundLocalError message, matching CPython
  semantics for function-local names.
- sorted(xs) is py_sorted, a stable insertion sort with the list order
  used by Python (all sorted lists in this code are duplicate-free, so
  any correct sort agrees).
- Floating point geometry is idealised over the reals; math.sqrt,
  math.acos, math.degrees become Real.sqrt, Real.arccos and
  multiplication by 180 / pi.
-/

/-! ### Python string primitives -/

/-- Does the second char list start with the first? -/
def starts_with : List Char → List Char → Bool
  | [], _ => true
  | _ :: _, [] => false
  | a :: as, b :: bs => a = b && starts_with as bs

/-- Is the needle a contiguous sublist of the haystack? -/
def contains_sub (needle : List Char) : List Char → Bool
  | [] => needle.isEmpty
  | c :: rest => starts_with needle (c :: rest) || contains_sub needle rest

/-- Python: needle in haystack (substring containment). -/
def py_in (needle haystack : String) : Bool :=
  contains_sub needle.toList haystack.toList

/-- Code-point lexicographic strict comparison on char lists,
as used by Python string comparison. -/
def chars_lt : List Char → List Char → Bool
  | [], [] => false
  | [], _ :: _ => true
  | _ :: _, [] => false
  | a :: as, b :: bs => if a < b then true else if b < a then false else chars_lt as bs

/-- Python: a < b on strings. -/
def py_str_lt (a b : String) : Bool := chars_lt a.toList b.toList

/-- Splitting a char list at every occurrence of the separator char. -/
def split_chars (sep : Char) : List Char → List (List Char)
  | [] => [[]]
  | c :: rest =>
    let r := split_chars sep rest
    if c = sep then [] :: r
    else
      match r with
      | [] => [[c]]
      | h :: t => (c :: h) :: t

/-- Python: s.split(sep) for a one-character separator. -/
def py_split (sep : Char) (s : String) : List String :=
  (split_chars sep s.toList).map (fun cs => String.mk cs)

/-- Python: sep.join(xs). -/
def py_join (sep : String) : List String → String
  | [] => ""
  | [x] => x
  | x :: xs => x ++ sep ++ py_join sep xs

/-! ### Python set / dict primitives -/

/-- Python set.add: a set is an insertion-ordered duplicate-free list;
adding appends the element if it is not already present. -/
def pyset_add [DecidableEq α] (s : List α) (x : α) : List α :=
  if x ∈ s then s else s ++ [x]

/-- Adding a whole list of elements to a Python set, one by one. -/
def pyset_update [DecidableEq α] (s : List α) (xs : List α) : List α :=
  xs.foldl pyset_add s

/-- Python: if key not in d: d[key] = set() ; d[key].add(val), on a dict
from strings to sets of strings modelled as an association list. -/
def dict_set_add (m : List (String × List String)) (key val : String) :
    List (String × List String) :=
  match m with
  | [] => [(key, [val])]
  | (k, s) :: rest =>
    if k = key then (k, pyset_add s val) :: rest else (k, s) :: dict_set_add rest key val

/-- Python dict lookup d[key] / membership key in d (some means present). -/
def dict_lookup (key : String) : List (String × List String) → Option (List String)
  | [] => none
  | (k, v) :: rest => if k = key then some v else dict_lookup key rest

/-! ### Sorting, Python style -/

/-- Generic lexicographic combination of two strict Bool comparisons,
as Python compares tuples element by element. -/
def lexLt (ltA : α → α → Bool) (ltB : β → β → Bool) (p q : α × β) : Bool :=
  if ltA p.1 q.1 then true else if ltA q.1 p.1 then false else ltB p.2 q.2

/-- Strict comparison on Nat as a Bool. -/
def nat_ltb (a b : Nat) : Bool := decide (a < b)

/-- Python: sorted(l) with strict comparison lt; a sort by the
non-strict relation (not (lt b a)). -/
def py_sorted (lt : α → α → Bool) (l : List α) : List α :=
  List.insertionSort (fun a b => (!(lt b a)) = true) l

/-- Python tuple comparison for pairs of strings. -/
def pair_str_lt : String × String → String × String → Bool :=
  lexLt py_str_lt py_str_lt

/-! ### Data model: interaction records -/

/-- A four-field record (frame_idx, atom1_label, atom2_label, itype):
both the hydrogen-bond rows and the pc rows of pi_cation.py. -/
structure ContactRec where
  frame_idx : Nat
  atom1_label : String
  atom2_label : String
  itype : String
deriving DecidableEq

/-- A direct water-bridge row (frame_idx, res_atom1, water, res_atom2, itype). -/
structure WbRec where
  frame_idx : Nat
  res_atom1 : String
  water : String
  res_atom2 : String
  itype : String
deriving DecidableEq

/-- An extended water-bridge row
(frame_idx, atom1, water1, water2, atom2, itype). -/
structure Wb2Rec where
  frame_idx : Nat
  atom1 : String
  water1 : String
  water2 : String
  atom2 : String
  itype : String
deriving DecidableEq

/-- Python list comparison on wb rows
[frame_idx, res_atom1, water, res_atom2, itype]. -/
def wb_lt (r s : WbRec) : Bool :=
  lexLt nat_ltb (lexLt py_str_lt (lexLt py_str_lt (lexLt py_str_lt py_str_lt)))
    (r.frame_idx, (r.res_atom1, (r.water, (r.res_atom2, r.itype))))
    (s.frame_idx, (s.res_atom1, (s.water, (s.res_atom2, s.itype))))

/-- The matching non-strict order on wb rows. -/
def wb_le (r s : WbRec) : Bool := !(wb_lt s r)

/-- Python list comparison on wb2 rows
[frame_idx, atom1, water1, water2, atom2, itype]. -/
def wb2_lt (r s : Wb2Rec) : Bool :=
  lexLt nat_ltb (lexLt py_str_lt (lexLt py_str_lt (lexLt py_str_lt (lexLt py_str_lt py_str_lt))))
    (r.frame_idx, (r.atom1, (r.water1, (r.water2, (r.atom2, r.itype)))))
    (s.frame_idx, (s.atom1, (s.water1, (s.water2, (s.atom2, s.itype)))))

/-! ### stratify_hbonds.py -/

/-- stratify_hbonds.py lines 26-39: split hbonds into those involving
residues only and those involving water, by the Python substring test
solvent_resn in atom_label on the full label. -/
def residue_vs_water_hbonds (hbonds : List ContactRec) (solvent_resn : String) :
    List ContactRec × List ContactRec :=
  hbonds.foldl
    (fun acc hbond =>
      if py_in solvent_resn hbond.atom1_label || py_in solvent_resn hbond.atom2_label then
        (acc.1, acc.2 ++ [hbond])
      else
        (acc.1 ++ [hbond], acc.2))
    ([], [])

/-- stratify_hbonds.py line 47. -/
def backbone_atoms : List String := ["N", "O"]

/-- atom_label.split(":")[3], which raises IndexError when the label has
fewer than four colon-separated fields. -/
def atom_name_field (atom_label : String) : Option String :=
  (py_split ':' atom_label).get? 3

/-- stratify_hbonds.py lines 41-67: stratify residue-residue hbonds into
sidechain-sidechain, sidechain-backbone and backbone-backbone, with the
three independent membership tests of the source. -/
def stratify_residue_hbonds :
    List ContactRec → Except String (List ContactRec × List ContactRec × List ContactRec)
  | [] => .ok ([], [], [])
  | hbond :: rest =>
    match atom_name_field hbond.atom1_label, atom_name_field hbond.atom2_label with
    | some atom1, some atom2 =>
      match stratify_residue_hbonds rest with
      | .error e => .error e
      | .ok (hbss, hbsb, hbbb) =>
        let hbss :=
          if atom1 ∉ backbone_atoms ∧ atom2 ∉ backbone_atoms then
            { hbond with itype := "hbss" } :: hbss
          else hbss
        let hbsb :=
          if (atom1 ∉ backbone_atoms ∧ atom2 ∈ backbone_atoms) ∨
              (atom1 ∈ backbone_atoms ∧ atom2 ∉ backbone_atoms) then
            { hbond with itype := "hbsb" } :: hbsb
          else hbsb
        let hbbb :=
          if atom1 ∈ backbone_atoms ∧ atom2 ∈ backbone_atoms then
            { hbond with itype := "hbbb" } :: hbbb
          else hbbb
        .ok (hbss, hbsb, hbbb)
    | _, _ => .error "IndexError: list index out of range"

/-- The loop state of calc_water_to_residues_map. frame_idx is assigned by
the tuple unpacking of each iteration; water and protein are function-local
names that are only assigned on the two mixed water/residue branches, so
they are Option-valued and assigned as a pair. -/
structure CwtrState where
  frame_idx : Option Nat
  water_protein : Option (String × String)
  water_to_residues : List (String × List String)
  solvent_bridges_raw : List (String × String)
deriving DecidableEq

/-- One iteration of the loop of stratify_hbonds.py lines 85-99. -/
def cwtr_step (solvent_resn : String) (st : CwtrState) (hbond : ContactRec) :
    Except String CwtrState :=
  let st := { st with frame_idx := some hbond.frame_idx }
  if py_in solvent_resn hbond.atom1_label && py_in solvent_resn hbond.atom2_label then
    .ok { st with
      solvent_bridges_raw := st.solvent_bridges_raw ++ [(hbond.atom1_label, hbond.atom2_label)] }
  else
    let wp :=
      if py_in solvent_resn hbond.atom1_label && !(py_in solvent_resn hbond.atom2_label) then
        some (hbond.atom1_label, hbond.atom2_label)
      else if !(py_in solvent_resn hbond.atom1_label) && py_in solvent_resn hbond.atom2_label then
        some (hbond.atom2_label, hbond.atom1_label)
      else
        st.water_protein
    match wp with
    | none => .error "UnboundLocalError: local variable water referenced before assignment"
    | some (water, protein) =>
      .ok { st with
        water_protein := some (water, protein),
        water_to_residues := dict_set_add st.water_to_residues water protein }

/-- stratify_hbonds.py lines 70-110: build the water-to-residues map and
the deduplicated, sorted solvent-bridge list, returning the frame index
left over from the loop variable (unassigned when the input is empty). -/
def calc_water_to_residues_map (water_hbonds : List ContactRec) (solvent_resn : String) :
    Except String (Nat × List (String × List String) × List (String × String)) := do
  let st ← water_hbonds.foldlM (cwtr_step solvent_resn) ⟨none, none, [], []⟩
  match st.frame_idx with
  | none => .error "UnboundLocalError: local variable frame_idx referenced before assignment"
  | some frame_idx =>
    let solvent_bridges :=
      st.solvent_bridges_raw.foldl
        (fun acc wpair =>
          if (wpair.1, wpair.2) ∈ acc ∨ (wpair.2, wpair.1) ∈ acc then acc
          else acc ++ [(wpair.1, wpair.2)])
        []
    .ok (frame_idx, st.water_to_residues, py_sorted pair_str_lt solvent_bridges)

/-- itertools.combinations(l, 2): all pairs (l[i], l[j]) with i < j. -/
def combinations2 : List α → List (α × α)
  | [] => []
  | x :: xs => xs.map (fun y => (x, y)) ++ combinations2 xs

/-- The wb rows contributed by one water of the map: one per ordered
2-combination of its sorted residue-atom set, with the source's guard
res_atom1 != res_atom2. -/
def water_bridge_records (frame_idx : Nat) (water : String) (protein_atoms : List String) :
    List WbRec :=
  ((combinations2 protein_atoms).filter (fun p => p.1 ≠ p.2)).map
    (fun p =>
      { frame_idx := frame_idx, res_atom1 := p.1, water := water, res_atom2 := p.2,
        itype := "wb" })

/-- stratify_hbonds.py lines 112-129: infer direct water bridges; the
for/add loop over each water of the map becomes a dedup fold into the
water_bridges set, then the set is emitted as a sorted list. -/
def stratify_water_bridge (water_hbonds : List ContactRec) (solvent_resn : String) :
    Except String (List WbRec) := do
  let (frame_idx, water_to_residues, _) ← calc_water_to_residues_map water_hbonds solvent_resn
  let water_bridges :=
    water_to_residues.foldl
      (fun acc entry =>
        pyset_update acc (water_bridge_records frame_idx entry.1 (py_sorted py_str_lt entry.2)))
      []
  .ok (py_sorted wb_lt water_bridges)

/-- The full cross product of the residue atoms of the two bridged waters,
atom1 always drawn from water1's set (lines 146-148). -/
def cross_wb2 (frame_idx : Nat) (water1 water2 : String) (l1 l2 : List String) : List Wb2Rec :=
  l1.flatMap (fun atom1 =>
    l2.map (fun atom2 =>
      { frame_idx := frame_idx, atom1 := atom1, water1 := water1, water2 := water2,
        atom2 := atom2, itype := "wb2" }))

/-- The wb2 rows contributed by one solvent bridge; empty when either
water is missing from the map (the continue of line 143). -/
def wb2_bridge_records (frame_idx : Nat) (water_to_residues : List (String × List String))
    (wpair : String × String) : List Wb2Rec :=
  match dict_lookup wpair.1 water_to_residues, dict_lookup wpair.2 water_to_residues with
  | some res_atom1_list, some res_atom2_list =>
    cross_wb2 frame_idx wpair.1 wpair.2 res_atom1_list res_atom2_list
  | _, _ => []

/-- stratify_hbonds.py lines 132-156: infer extended water bridges, sort
them, and copy them into the output list entry by entry. -/
def stratify_extended_water_bridge (water_hbonds : List ContactRec) (solvent_resn : String) :
    Except String (List Wb2Rec) := do
  let (frame_idx, water_to_residues, solvent_bridges) ←
    calc_water_to_residues_map water_hbonds solvent_resn
  let extended_water_bridges :=
    solvent_bridges.foldl
      (fun acc wpair => pyset_update acc (wb2_bridge_records frame_idx water_to_residues wpair))
      []
  let extended_water_bridges := py_sorted wb2_lt extended_water_bridges
  .ok (extended_water_bridges.foldl (fun wb2 entry => wb2 ++ [entry]) [])

/-- The heterogeneous rows of the final stratified list. -/
inductive HRecord where
  | hb4 (rec : ContactRec)
  | wb5 (rec : WbRec)
  | wb26 (rec : Wb2Rec)
deriving DecidableEq

/-- stratify_hbonds.py lines 159-185: the top-level stratifier. Note that
lines 181-182 pass the full hbonds list, not the water_hbonds partition,
to the two water-bridge builders. -/
def stratify_hbond_subtypes (hbonds : List ContactRec) (solvent_resn : String) :
    Except String (List HRecord) := do
  let (residue_hbonds, _water_hbonds) := residue_vs_water_hbonds hbonds solvent_resn
  let (hbss, hbsb, hbbb) ← stratify_residue_hbonds residue_hbonds
  let wb ← stratify_water_bridge hbonds solvent_resn
  let wb2 ← stratify_extended_water_bridge hbonds solvent_resn
  .ok (((hbss ++ hbsb ++ hbbb).map HRecord.hb4) ++ (wb.map HRecord.wb5) ++
    (wb2.map HRecord.wb26))

/-! ### contact_utils.py geometry -/

/-- A 3-vector of idealised real coordinates (np.array[x, y, z]). -/
structure Vec3 where
  x : ℝ
  y : ℝ
  z : ℝ

/-- np.dot on 3-vectors. -/
noncomputable def np_dot (u v : Vec3) : ℝ := u.x * v.x + u.y * v.y + u.z * v.z

/-- np.cross on 3-vectors. -/
noncomputable def np_cross (u v : Vec3) : Vec3 :=
  ⟨u.y * v.z - u.z * v.y, u.z * v.x - u.x * v.z, u.x * v.y - u.y * v.x⟩

/-- Componentwise vector subtraction. -/
noncomputable def vsub (u v : Vec3) : Vec3 := ⟨u.x - v.x, u.y - v.y, u.z - v.z⟩

/-- Componentwise vector negation. -/
noncomputable def vneg (u : Vec3) : Vec3 := ⟨-u.x, -u.y, -u.z⟩

/-- contact_utils.py lines 525-530. -/
noncomputable def points_to_vector (point1 point2 : Vec3) : Vec3 := vsub point2 point1

/-- contact_utils.py lines 532-537: math.sqrt(np.dot(v, v)). -/
noncomputable def calc_vector_length (vector : Vec3) : ℝ := Real.sqrt (np_dot vector vector)

/-- math.degrees. -/
noncomputable def math_degrees (radians : ℝ) : ℝ := radians * 180 / Real.pi

/-- contact_utils.py lines 539-548: degrees of
acos(dot(v1, v2) / (len(v1) * len(v2))). -/
noncomputable def calc_angle_between_vectors (vector1 vector2 : Vec3) : ℝ :=
  math_degrees
    (Real.arccos (np_dot vector1 vector2 / (calc_vector_length vector1 * calc_vector_length vector2)))

/-- contact_utils.py lines 550-559: np.linalg.norm(point1 - point2). -/
noncomputable def calc_geom_distance (point1 point2 : Vec3) : ℝ :=
  calc_vector_length (vsub point1 point2)

/-- contact_utils.py lines 561-570. -/
noncomputable def calc_geom_centroid (point1 point2 point3 : Vec3) : Vec3 :=
  ⟨(point1.x + point2.x + point3.x) / 3, (point1.y + point2.y + point3.y) / 3,
    (point1.z + point2.z + point3.z) / 3⟩

/-- contact_utils.py lines 572-585: np.cross(point3 - point1, point2 - point1). -/
noncomputable def calc_geom_normal_vector (point1 point2 point3 : Vec3) : Vec3 :=
  np_cross (vsub point3 point1) (vsub point2 point1)

/-! ### pi_cation.py -/

/-- pi_cation.py line 23: 6.0 Angstrom. -/
noncomputable def DISTANCE_CUTOFF : ℝ := 6

/-- pi_cation.py line 25: 60 degrees. -/
noncomputable def ANGLE_CUTOFF : ℝ := 60

/-- pi_cation.py line 106: fold an angle by
min(math.fabs(angle - 0), math.fabs(angle - 180)). -/
noncomputable def fold_angle (angle : ℝ) : ℝ := min |angle - 0| |angle - 180|

/-- pi_cation.py line 84: ":".join(key.split(":")[0:5]). -/
def cation_label_of_key (pi_cation_aromatic_res_key : String) : String :=
  py_join ":" ((py_split ':' pi_cation_aromatic_res_key).take 5)

/-- pi_cation.py lines 83-112, the body of the strict-criterion loop for
one grouping entry. The coords argument stands for the get_coord backend
query. The default arm of the match is unreachable because sorting
preserves the length 3 that the guard has just checked. -/
noncomputable def process_pi_cation_group (coords : String → Vec3) (frame_idx : Nat)
    (pi_cation_aromatic_res_key : String) (aromatic_atom_labels : List String) :
    List ContactRec :=
  let cation_atom_label := cation_label_of_key pi_cation_aromatic_res_key
  if aromatic_atom_labels.length ≠ 3 then []
  else
    match py_sorted py_str_lt aromatic_atom_labels with
    | [arom_atom1_label, arom_atom2_label, arom_atom3_label] =>
      let cation_coord := coords cation_atom_label
      let arom_atom1_coord := coords arom_atom1_label
      let arom_atom2_coord := coords arom_atom2_label
      let arom_atom3_coord := coords arom_atom3_label
      let aromatic_centroid := calc_geom_centroid arom_atom1_coord arom_atom2_coord arom_atom3_coord
      let cation_to_centroid_distance := calc_geom_distance cation_coord aromatic_centroid
      if cation_to_centroid_distance > DISTANCE_CUTOFF then []
      else
        let aromatic_plane_norm_vec :=
          calc_geom_normal_vector arom_atom1_coord arom_atom2_coord arom_atom3_coord
        let aromatic_center_to_cation_vec := points_to_vector aromatic_centroid cation_coord
        let cation_norm_offset_angle :=
          calc_angle_between_vectors aromatic_plane_norm_vec aromatic_center_to_cation_vec
        let cation_norm_offset_angle := fold_angle cation_norm_offset_angle
        if cation_norm_offset_angle > ANGLE_CUTOFF then []
        else
          [{ frame_idx := frame_idx, atom1_label := cation_atom_label,
             atom2_label := arom_atom1_label, itype := "pc" },
           { frame_idx := frame_idx, atom1_label := cation_atom_label,
             atom2_label := arom_atom2_label, itype := "pc" },
           { frame_idx := frame_idx, atom1_label := cation_atom_label,
             atom2_label := arom_atom2_label, itype := "pc" }]
    | _ => []

/-- pi_cation.py lines 71-79: group the raw contact index pairs by
cation_label + ":" + ":".join(aromatic_label.split(":")[2]), where the
join runs over the characters of the resid string. -/
def group_pi_cation_contacts (contact_index_pairs : List (Nat × Nat))
    (index_to_label : Nat → String) : Except String (List (String × List String)) :=
  contact_index_pairs.foldlM
    (fun pi_cation_aromatic_grouping cpair =>
      let cation_label := index_to_label cpair.1
      let aromatic_label := index_to_label cpair.2
      match (py_split ':' aromatic_label).get? 2 with
      | none => .error "IndexError: list index out of range"
      | some resid =>
        let pi_cation_aromatic_res_key :=
          cation_label ++ ":" ++ py_join ":" (resid.toList.map (fun c => String.mk [c]))
        .ok (dict_set_add pi_cation_aromatic_grouping pi_cation_aromatic_res_key aromatic_label))
    []

/-- pi_cation.py lines 32-114 past the backend atom selection: group the
candidate contacts, then run the strict criterion on every group. -/
noncomputable def compute_pi_cation (contact_index_pairs : List (Nat × Nat))
    (index_to_label : Nat → String) (coords : String → Vec3) (frame_idx : Nat) :
    Except String (List ContactRec) := do
  let grouping ← group_pi_cation_contacts contact_index_pairs index_to_label
  .ok (grouping.foldl
    (fun pi_cations entry => pi_cations ++ process_pi_cation_group coords frame_idx entry.1 entry.2)
    [])

/-! ### Spec-side definitions used to state the claims -/

/-- The resname segment of a label, the second colon-separated field. -/
def resname_field (label : String) : String := (py_split ':' label).getD 1 ""

/-- The atom-name segment of a label as a total function (the claims only
use it on labels where the partial extraction succeeds). -/
def atom_name_of (label : String) : String := (atom_name_field label).getD ""

/-- Sidechain-sidechain condition of the stratifier. -/
def hb_is_ss (hbond : ContactRec) : Prop :=
  atom_name_of hbond.atom1_label ∉ backbone_atoms ∧ atom_name_of hbond.atom2_label ∉ backbone_atoms

/-- Sidechain-backbone condition of the stratifier. -/
def hb_is_sb (hbond : ContactRec) : Prop :=
  (atom_name_of hbond.atom1_label ∉ backbone_atoms ∧ atom_name_of hbond.atom2_label ∈ backbone_atoms) ∨
    (atom_name_of hbond.atom1_label ∈ backbone_atoms ∧ atom_name_of hbond.atom2_label ∉ backbone_atoms)

/-- Backbone-backbone condition of the stratifier. -/
def hb_is_bb (hbond : ContactRec) : Prop :=
  atom_name_of hbond.atom1_label ∈ backbone_atoms ∧ atom_name_of hbond.atom2_label ∈ backbone_atoms

instance : DecidablePred hb_is_ss := fun hbond => by unfold hb_is_ss; infer_instance

instance : DecidablePred hb_is_sb := fun hbond => by unfold hb_is_sb; infer_instance

instance : DecidablePred hb_is_bb := fun hbond => by unfold hb_is_bb; infer_instance

/-- The water-involving test actually performed by the source: the
solvent resname occurring anywhere in either full label. -/
def is_water_hbond (solvent_resn : String) (hbond : ContactRec) : Bool :=
  py_in solvent_resn hbond.atom1_label || py_in solvent_resn hbond.atom2_label

/-- Retype a record as a sidechain-sidechain hbond. -/
def as_hbss (hbond : ContactRec) : ContactRec := { hbond with itype := "hbss" }

/-- Retype a record as a sidechain-backbone hbond. -/
def as_hbsb (hbond : ContactRec) : ContactRec := { hbond with itype := "hbsb" }

/-- Retype a record as a backbone-backbone hbond. -/
def as_hbbb (hbond : ContactRec) : ContactRec := { hbond with itype := "hbbb" }

/-- A strict linear order packaged for the Bool comparisons above. -/
structure IsLinLtB (lt : α → α → Bool) : Prop where
  irrefl : ∀ a, lt a a = false
  lt_trans : ∀ a b c, lt a b = true → lt b c = true → lt a c = true
  trichot : ∀ a b, lt a b = true ∨ a = b ∨ lt b a = true

/-! ### Order kit for the Bool comparators -/

theorem IsLinLtB.asymm {lt : α → α → Bool} (h : IsLinLtB lt) {a b : α}
    (hab : lt a b = true) : lt b a = false := by
  cases hba : lt b a with
  | false => rfl
  | true =>
    have := h.lt_trans a b a hab hba
    rw [h.irrefl a] at this
    exact absurd this Bool.false_ne_true

theorem isTotal_of_linLt {lt : α → α → Bool} (h : IsLinLtB lt) :
    IsTotal α (fun a b => (!(lt b a)) = true) := by
  constructor
  intro a b
  cases hab : lt a b with
  | true => left; rw [h.asymm hab]; rfl
  | false => right; rfl

theorem isTrans_of_linLt {lt : α → α → Bool} (h : IsLinLtB lt) :
    IsTrans α (fun a b => (!(lt b a)) = true) := by
  constructor
  intro a b c h1 h2
  rw [Bool.not_eq_true'] at h1 h2 ⊢
  cases hca : lt c a with
  | false => rfl
  | true =>
    exfalso
    rcases h.trichot a b with hab | rfl | hba
    · have := h.lt_trans c a b hca hab
      rw [h2] at this
      exact absurd this Bool.false_ne_true
    · rw [h2] at hca
      exact absurd hca Bool.false_ne_true
    · rw [h1] at hba
      exact absurd hba Bool.false_ne_true

theorem nat_ltb_lin : IsLinLtB nat_ltb := by
  constructor
  · intro a; simp [nat_ltb]
  · intro a b c h1 h2; simp only [nat_ltb, decide_eq_true_eq] at h1 h2 ⊢; omega
  · intro a b; simp only [nat_ltb, decide_eq_true_eq]; omega

theorem chars_lt_irrefl (as : List Char) : chars_lt as as = false := by
  induction as with
  | nil => rfl
  | cons a as ih => simp [chars_lt, ih]

theorem chars_lt_trans : ∀ as bs cs : List Char,
    chars_lt as bs = true → chars_lt bs cs = true → chars_lt as cs = true := by
  intro as
  induction as with
  | nil =>
    intro bs cs h1 h2
    cases bs with
    | nil => simp [chars_lt] at h1
    | cons b bs =>
      cases cs with
      | nil => simp [chars_lt] at h2
      | cons c cs => simp [chars_lt]
  | cons a as ih =>
    intro bs cs h1 h2
    cases bs with
    | nil => simp [chars_lt] at h1
    | cons b bs =>
      cases cs with
      | nil => simp [chars_lt] at h2
      | cons c cs =>
        simp only [chars_lt] at h1 h2 ⊢
        by_cases hab : a < b
        · by_cases hbc : b < c
          · simp [lt_trans hab hbc]
          · by_cases hcb : c < b
            · simp [hbc, hcb] at h2
            · have hbc' : b = c := le_antisymm (not_lt.mp hcb) (not_lt.mp hbc)
              subst hbc'
              simp [hab]
        · by_cases hba : b < a
          · simp [hab, hba] at h1
          · have hab' : a = b := le_antisymm (not_lt.mp hba) (not_lt.mp hab)
            subst hab'
            simp only [lt_self_iff_false, if_false] at h1
            by_cases hac : a < c
            · simp [hac]
            · by_cases hca : c < a
              · simp [hac, hca] at h2
              · simp only [hac, hca, if_false] at h2 ⊢
                exact ih bs cs h1 h2

theorem chars_lt_trichot : ∀ as bs : List Char,
    chars_lt as bs = true ∨ as = bs ∨ chars_lt bs as = true := by
  intro as
  induction as with
  | nil =>
    intro bs
    cases bs with
    | nil => right; left; rfl
    | cons b bs => left; simp [chars_lt]
  | cons a as ih =>
    intro bs
    cases bs with
    | nil => right; right; simp [chars_lt]
    | cons b bs =>
      by_cases hab : a < b
      · left; simp [chars_lt, hab]
      · by_cases hba : b < a
        · right; right; simp [chars_lt, hba]
        · have hab' : a = b := le_antisymm (not_lt.mp hba) (not_lt.mp hab)
          subst hab'
          rcases ih bs with h | h | h
          · left; simp [chars_lt, h]
          · right; left; rw [h]
          · right; right; simp [chars_lt, h]

theorem chars_lt_lin : IsLinLtB chars_lt :=
  ⟨chars_lt_irrefl, chars_lt_trans, chars_lt_trichot⟩

theorem py_str_lt_lin : IsLinLtB py_str_lt := by
  constructor
  · intro a; exact chars_lt_irrefl _
  · intro a b c h1 h2; exact chars_lt_trans _ _ _ h1 h2
  · intro a b
    rcases chars_lt_trichot a.toList b.toList with h | h | h
    · left; exact h
    · right; left
      exact String.ext h
    · right; right; exact h

theorem lexLt_lin {ltA : α → α → Bool} {ltB : β → β → Bool}
    (hA : IsLinLtB ltA) (hB : IsLinLtB ltB) : IsLinLtB (lexLt ltA ltB) := by
  constructor
  · rintro ⟨a, b⟩
    simp [lexLt, hA.irrefl, hB.irrefl]
  · rintro ⟨a1, b1⟩ ⟨a2, b2⟩ ⟨a3, b3⟩ h1 h2
    simp only [lexLt] at h1 h2 ⊢
    by_cases h12 : ltA a1 a2 = true
    · by_cases h23 : ltA a2 a3 = true
      · simp [hA.lt_trans _ _ _ h12 h23]
      · by_cases h32 : ltA a3 a2 = true
        · simp [h23, h32] at h2
        · rcases hA.trichot a2 a3 with h | h | h
          · exact absurd h h23
          · subst h; simp [h12]
          · exact absurd h h32
    · by_cases h21 : ltA a2 a1 = true
      · simp [h12, h21] at h1
      · rcases hA.trichot a1 a2 with h | h | h
        · exact absurd h h12
        · subst h
          simp only [hA.irrefl, if_false] at h1
          by_cases h13 : ltA a1 a3 = true
          · simp [h13]
          · by_cases h31 : ltA a3 a1 = true
            · simp [h13, h31] at h2
            · simp only [h13, h31, if_false] at h2 ⊢
              exact hB.lt_trans _ _ _ h1 h2
        · exact absurd h h21
  · rintro ⟨a1, b1⟩ ⟨a2, b2⟩
    by_cases h12 : ltA a1 a2 = true
    · left; simp [lexLt, h12]
    · by_cases h21 : ltA a2 a1 = true
      · right; right; simp [lexLt, h21]
      · rcases hA.trichot a1 a2 with h | h | h
        · exact absurd h h12
        · subst h
          rcases hB.trichot b1 b2 with h | h | h
          · left; simp [lexLt, hA.irrefl, h]
          · right; left; rw [h]
          · right; right; simp [lexLt, hA.irrefl, h]
        · exact absurd h h21

theorem linLt_pullback {γ : Type _} (f : γ → α) {lt : α → α → Bool} (h : IsLinLtB lt)
    (hf : Function.Injective f) : IsLinLtB (fun x y => lt (f x) (f y)) := by
  constructor
  · intro a; exact h.irrefl _
  · intro a b c; exact h.lt_trans _ _ _
  · intro a b
    rcases h.trichot (f a) (f b) with h' | h' | h'
    · left; exact h'
    · right; left; exact hf h'
    · right; right; exact h'

theorem pair_str_lt_lin : IsLinLtB pair_str_lt :=
  lexLt_lin py_str_lt_lin py_str_lt_lin

theorem wb_tuple_injective :
    Function.Injective (fun r : WbRec =>
      (r.frame_idx, (r.res_atom1, (r.water, (r.res_atom2, r.itype))))) := by
  rintro ⟨a, b, c, d, e⟩ ⟨a', b', c', d', e'⟩ h
  simp only [Prod.mk.injEq] at h
  obtain ⟨h1, h2, h3, h4, h5⟩ := h
  simp [h1, h2, h3, h4, h5]

theorem wb_lt_lin : IsLinLtB wb_lt := by
  have h :=
    linLt_pullback
      (fun r : WbRec => (r.frame_idx, (r.res_atom1, (r.water, (r.res_atom2, r.itype)))))
      (lexLt_lin nat_ltb_lin
        (lexLt_lin py_str_lt_lin (lexLt_lin py_str_lt_lin (lexLt_lin py_str_lt_lin py_str_lt_lin))))
      wb_tuple_injective
  exact h

theorem wb2_tuple_injective :
    Function.Injective (fun r : Wb2Rec =>
      (r.frame_idx, (r.atom1, (r.water1, (r.water2, (r.atom2, r.itype)))))) := by
  rintro ⟨a, b, c, d, e, f⟩ ⟨a', b', c', d', e', f'⟩ h
  simp only [Prod.mk.injEq] at h
  obtain ⟨h1, h2, h3, h4, h5, h6⟩ := h
  simp [h1, h2, h3, h4, h5, h6]

theorem wb2_lt_lin : IsLinLtB wb2_lt := by
  have h :=
    linLt_pullback
      (fun r : Wb2Rec => (r.frame_idx, (r.atom1, (r.water1, (r.water2, (r.atom2, r.itype))))))
      (lexLt_lin nat_ltb_lin
        (lexLt_lin py_str_lt_lin
          (lexLt_lin py_str_lt_lin
            (lexLt_lin py_str_lt_lin (lexLt_lin py_str_lt_lin py_str_lt_lin)))))
      wb2_tuple_injective
  exact h

/-! ### py_sorted lemmas -/

theorem py_sorted_sorted {lt : α → α → Bool} (h : IsLinLtB lt) (l : List α) :
    List.Sorted (fun a b => (!(lt b a)) = true) (py_sorted lt l) := by
  haveI := isTrans_of_linLt h
  haveI := isTotal_of_linLt h
  exact List.sorted_insertionSort _ l

theorem py_sorted_perm (lt : α → α → Bool) (l : List α) : (py_sorted lt l).Perm l :=
  List.perm_insertionSort _ l

theorem mem_py_sorted (lt : α → α → Bool) (l : List α) (x : α) :
    x ∈ py_sorted lt l ↔ x ∈ l :=
  (py_sorted_perm lt l).mem_iff

theorem py_sorted_nodup (lt : α → α → Bool) (l : List α) (h : l.Nodup) :
    (py_sorted lt l).Nodup :=
  (py_sorted_perm lt l).nodup_iff.mpr h

/-! ### Python set lemmas -/

theorem mem_pyset_add [DecidableEq α] (s : List α) (x y : α) :
    y ∈ pyset_add s x ↔ y ∈ s ∨ y = x := by
  by_cases hx : x ∈ s
  · simp only [pyset_add, if_pos hx]
    exact ⟨Or.inl, fun h => h.elim id (fun h' => h' ▸ hx)⟩
  · simp [pyset_add, hx]

theorem nodup_pyset_add [DecidableEq α] (s : List α) (x : α) (h : s.Nodup) :
    (pyset_add s x).Nodup := by
  by_cases hx : x ∈ s
  · simpa [pyset_add, hx] using h
  · simp only [pyset_add, if_neg hx]
    refine List.Nodup.append h (List.nodup_singleton x) ?_
    intro a ha ha'
    rw [List.mem_singleton] at ha'
    exact hx (ha' ▸ ha)

theorem mem_pyset_update [DecidableEq α] (xs : List α) :
    ∀ (s : List α) (y : α), y ∈ pyset_update s xs ↔ y ∈ s ∨ y ∈ xs := by
  induction xs with
  | nil => simp [pyset_update]
  | cons x xs ih =>
    intro s y
    have : pyset_update s (x :: xs) = pyset_update (pyset_add s x) xs := rfl
    rw [this, ih, mem_pyset_add, List.mem_cons]
    tauto

theorem nodup_pyset_update [DecidableEq α] (xs : List α) :
    ∀ s : List α, s.Nodup → (pyset_update s xs).Nodup := by
  induction xs with
  | nil => intro s h; simpa [pyset_update] using h
  | cons x xs ih =>
    intro s h
    have : pyset_update s (x :: xs) = pyset_update (pyset_add s x) xs := rfl
    rw [this]
    exact ih _ (nodup_pyset_add s x h)

theorem mem_foldl_pyset_update [DecidableEq α] {β : Type _} (g : β → List α) (l : List β) :
    ∀ (acc : List α) (y : α),
      y ∈ l.foldl (fun acc e => pyset_update acc (g e)) acc ↔ y ∈ acc ∨ ∃ e ∈ l, y ∈ g e := by
  induction l with
  | nil => simp
  | cons e l ih =>
    intro acc y
    rw [List.foldl_cons, ih, mem_pyset_update]
    constructor
    · rintro ((h | h) | ⟨e', he', h⟩)
      · exact Or.inl h
      · exact Or.inr ⟨e, List.mem_cons_self e l, h⟩
      · exact Or.inr ⟨e', List.mem_cons_of_mem e he', h⟩
    · rintro (h | ⟨e', he', h⟩)
      · exact Or.inl (Or.inl h)
      · rcases List.mem_cons.mp he' with rfl | he''
        · exact Or.inl (Or.inr h)
        · exact Or.inr ⟨e', he'', h⟩

theorem nodup_foldl_pyset_update [DecidableEq α] {β : Type _} (g : β → List α) (l : List β) :
    ∀ acc : List α, acc.Nodup → (l.foldl (fun acc e => pyset_update acc (g e)) acc).Nodup := by
  induction l with
  | nil => intro acc h; simpa using h
  | cons e l ih =>
    intro acc h
    rw [List.foldl_cons]
    exact ih _ (nodup_pyset_update _ _ h)

/-! ### combinations2 lemmas -/

theorem combinations2_sorted_mem {lt : α → α → Bool} (h : IsLinLtB lt) :
    ∀ l : List α, List.Sorted (fun a b => (!(lt b a)) = true) l →
      ∀ x y : α, ((x, y) ∈ combinations2 l ∧ x ≠ y) ↔ (x ∈ l ∧ y ∈ l ∧ lt x y = true) := by
  intro l
  induction l with
  | nil => simp [combinations2]
  | cons a l ih =>
    intro hs x y
    obtain ⟨ha, hs'⟩ := List.sorted_cons.mp hs
    constructor
    · rintro ⟨hmem, hne⟩
      simp only [combinations2, List.mem_append, List.mem_map] at hmem
      rcases hmem with ⟨b, hb, hba⟩ | hmem
      · obtain ⟨rfl, rfl⟩ : a = x ∧ b = y := by
          rw [Prod.mk.injEq] at hba
          exact hba
        refine ⟨List.mem_cons_self _ _, List.mem_cons_of_mem _ hb, ?_⟩
        rcases h.trichot a b with hxy | rfl | hyx
        · exact hxy
        · exact absurd rfl hne
        · have hya := ha b hb
          rw [hyx] at hya
          simp at hya
      · have := (ih hs' x y).mp ⟨hmem, hne⟩
        exact ⟨List.mem_cons_of_mem _ this.1, List.mem_cons_of_mem _ this.2.1, this.2.2⟩
    · rintro ⟨hx, hy, hlt⟩
      have hne : x ≠ y := by
        rintro rfl
        rw [h.irrefl] at hlt
        exact absurd hlt Bool.false_ne_true
      refine ⟨?_, hne⟩
      simp only [combinations2, List.mem_append, List.mem_map]
      rcases List.mem_cons.mp hx with rfl | hx'
      · rcases List.mem_cons.mp hy with rfl | hy'
        · exact absurd rfl hne
        · exact Or.inl ⟨y, hy', rfl⟩
      · rcases List.mem_cons.mp hy with rfl | hy'
        · have hxa := ha x hx'
          rw [hlt] at hxa
          simp at hxa
        · exact Or.inr ((ih hs' x y).mpr ⟨hx', hy', hlt⟩).1

/-! ### small list helpers -/

theorem foldl_append_singleton : ∀ (l acc : List α),
    l.foldl (fun acc e => acc ++ [e]) acc = acc ++ l := by
  intro l
  induction l with
  | nil => intro acc; simp
  | cons e l ih => intro acc; rw [List.foldl_cons, ih]; simp

theorem length_py_sorted (lt : α → α → Bool) (l : List α) :
    (py_sorted lt l).length = l.length :=
  (py_sorted_perm lt l).length_eq

/-! ### The residue / water partition (claim C2) -/

theorem residue_vs_water_hbonds_aux (solvent_resn : String) :
    ∀ (l : List ContactRec) (racc wacc : List ContactRec),
      l.foldl
        (fun acc hbond =>
          if py_in solvent_resn hbond.atom1_label || py_in solvent_resn hbond.atom2_label then
            (acc.1, acc.2 ++ [hbond])
          else (acc.1 ++ [hbond], acc.2))
        (racc, wacc) =
      (racc ++ l.filter (fun hb => !(is_water_hbond solvent_resn hb)),
       wacc ++ l.filter (fun hb => is_water_hbond solvent_resn hb)) := by
  intro l
  induction l with
  | nil => intro racc wacc; simp
  | cons hb l ih =>
    intro racc wacc
    rw [List.foldl_cons]
    by_cases hw : (py_in solvent_resn hb.atom1_label || py_in solvent_resn hb.atom2_label) = true
    · have hw' : is_water_hbond solvent_resn hb = true := hw
      have hf1 : (hb :: l).filter (fun hb => !(is_water_hbond solvent_resn hb))
          = l.filter (fun hb => !(is_water_hbond solvent_resn hb)) := by
        rw [List.filter_cons]
        simp [hw']
      have hf2 : (hb :: l).filter (fun hb => is_water_hbond solvent_resn hb)
          = hb :: l.filter (fun hb => is_water_hbond solvent_resn hb) := by
        rw [List.filter_cons]
        simp [hw']
      rw [if_pos hw, ih, hf1, hf2]
      simp
    · have hw' : is_water_hbond solvent_resn hb = false := by
        have := hw
        rw [Bool.not_eq_true] at this
        exact this
      have hf1 : (hb :: l).filter (fun hb => !(is_water_hbond solvent_resn hb))
          = hb :: l.filter (fun hb => !(is_water_hbond solvent_resn hb)) := by
        rw [List.filter_cons]
        simp [hw']
      have hf2 : (hb :: l).filter (fun hb => is_water_hbond solvent_resn hb)
          = l.filter (fun hb => is_water_hbond solvent_resn hb) := by
        rw [List.filter_cons]
        simp [hw']
      rw [if_neg hw, ih, hf1, hf2]
      simp

/-- Claim C2, amended: the source classifies an hbond as water-involving
exactly when the solvent resname occurs as a substring anywhere in either
atom's full label (not only in the resname field); all other hbonds are
classified residue-residue, preserving order and multiplicity. -/
theorem residue_vs_water_substring_partition (hbonds : List ContactRec) (solvent_resn : String) :
    residue_vs_water_hbonds hbonds solvent_resn =
      (hbonds.filter (fun hb => !(is_water_hbond solvent_resn hb)),
       hbonds.filter (fun hb => is_water_hbond solvent_resn hb)) := by
  have h := residue_vs_water_hbonds_aux solvent_resn hbonds [] []
  simpa [residue_vs_water_hbonds] using h

/-- Claim C2, counterexample to the claim as stated: an hbond whose first
atom has resname field ALA but atom-name field TIP3 is classified as
water-involving by the code even though the solvent name TIP3 does not
occur in (let alone equal) either resname field. -/
theorem residue_vs_water_resname_counterexample :
    (residue_vs_water_hbonds [⟨0, "A:ALA:1:TIP3:10", "B:GLY:2:N:20", "hb"⟩] "TIP3").2 =
        [⟨0, "A:ALA:1:TIP3:10", "B:GLY:2:N:20", "hb"⟩] ∧
      resname_field "A:ALA:1:TIP3:10" = "ALA" ∧
      resname_field "B:GLY:2:N:20" = "GLY" ∧
      py_in "TIP3" "ALA" = false ∧
      py_in "TIP3" "GLY" = false :=
  ⟨rfl, rfl, rfl, rfl, rfl⟩

/-! ### Empty input reads the unassigned loop variable (claim C9) -/

/-- Claim C9: on the empty hbonds list the stratifier does not return a
value at all: calc_water_to_residues_map returns the loop variable
frame_idx after a loop over zero elements, an unbound-local read. -/
theorem stratify_empty_unbound_frame_idx (solvent_resn : String) :
    stratify_hbond_subtypes [] solvent_resn =
      .error "UnboundLocalError: local variable frame_idx referenced before assignment" := rfl

/-! ### Incomplete ring groups are skipped (claim C8) -/

/-- Claim C8: a candidate (cation, ring-residue) group whose aromatic-atom
set does not have exactly 3 elements is skipped without any error and
contributes zero records. -/
theorem process_group_skips_incomplete_ring (coords : String → Vec3) (frame_idx : Nat)
    (pi_cation_aromatic_res_key : String) (aromatic_atom_labels : List String)
    (h : aromatic_atom_labels.length ≠ 3) :
    process_pi_cation_group coords frame_idx pi_cation_aromatic_res_key aromatic_atom_labels
      = [] := by
  unfold process_pi_cation_group
  rw [if_pos h]

/-- Witness for C8: a group with exactly 2 detected aromatic atoms emits
zero records. -/
theorem process_group_skips_incomplete_ring_witness :
    (["A:PHE:1:CG:4", "A:PHE:1:CE1:2"] : List String).length ≠ 3 ∧
      process_pi_cation_group (fun _ => ⟨0, 0, 0⟩) 0 "A:LYS:9:NZ:1:1"
        ["A:PHE:1:CG:4", "A:PHE:1:CE1:2"] = [] :=
  ⟨by decide,
    process_group_skips_incomplete_ring (fun _ => ⟨0, 0, 0⟩) 0 "A:LYS:9:NZ:1:1"
      ["A:PHE:1:CG:4", "A:PHE:1:CE1:2"] (by decide)⟩

/-! ### Residue hbond stratification is a partition (claim C3) -/

theorem hb_class_exactly_one (hb : ContactRec) :
    (hb_is_ss hb ∧ ¬hb_is_sb hb ∧ ¬hb_is_bb hb) ∨
      (¬hb_is_ss hb ∧ hb_is_sb hb ∧ ¬hb_is_bb hb) ∨
      (¬hb_is_ss hb ∧ ¬hb_is_sb hb ∧ hb_is_bb hb) := by
  unfold hb_is_ss hb_is_sb hb_is_bb
  by_cases h1 : atom_name_of hb.atom1_label ∈ backbone_atoms <;>
    by_cases h2 : atom_name_of hb.atom2_label ∈ backbone_atoms <;> tauto

/-- Claim C3: on success, the three classes of stratify_residue_hbonds
are exactly the (retyped) sublists selected by the three backbone
conditions, their sizes add up to the input size, and every hbond
satisfies exactly one of the three conditions: the classes are pairwise
disjoint and cover the input. -/
theorem stratify_residue_hbonds_partition :
    ∀ (residue_hbonds hbss hbsb hbbb : List ContactRec),
      stratify_residue_hbonds residue_hbonds = .ok (hbss, hbsb, hbbb) →
      (hbss = (residue_hbonds.filter (fun hb => hb_is_ss hb)).map as_hbss ∧
        hbsb = (residue_hbonds.filter (fun hb => hb_is_sb hb)).map as_hbsb ∧
        hbbb = (residue_hbonds.filter (fun hb => hb_is_bb hb)).map as_hbbb) ∧
      hbss.length + hbsb.length + hbbb.length = residue_hbonds.length ∧
      ∀ hb ∈ residue_hbonds,
        (hb_is_ss hb ∧ ¬hb_is_sb hb ∧ ¬hb_is_bb hb) ∨
          (¬hb_is_ss hb ∧ hb_is_sb hb ∧ ¬hb_is_bb hb) ∨
          (¬hb_is_ss hb ∧ ¬hb_is_sb hb ∧ hb_is_bb hb) := by
  intro l
  induction l with
  | nil =>
    intro hbss hbsb hbbb h
    simp only [stratify_residue_hbonds, Except.ok.injEq, Prod.mk.injEq] at h
    obtain ⟨h1, h2, h3⟩ := h
    subst h1; subst h2; subst h3
    simp
  | cons hbond rest ih =>
    intro hbss hbsb hbbb h
    cases ha1 : atom_name_field hbond.atom1_label with
    | none =>
      simp only [stratify_residue_hbonds, ha1] at h
      exact Except.noConfusion h
    | some atom1 =>
      cases ha2 : atom_name_field hbond.atom2_label with
      | none =>
        simp only [stratify_residue_hbonds, ha1, ha2] at h
        exact Except.noConfusion h
      | some atom2 =>
        cases hr : stratify_residue_hbonds rest with
        | error e =>
          simp only [stratify_residue_hbonds, ha1, ha2, hr] at h
          exact Except.noConfusion h
        | ok triple =>
          obtain ⟨x, y, z⟩ := triple
          obtain ⟨⟨ihf1, ihf2, ihf3⟩, ihlen, _⟩ := ih x y z hr
          have e1 : atom_name_of hbond.atom1_label = atom1 := by
            rw [atom_name_of, ha1]; rfl
          have e2 : atom_name_of hbond.atom2_label = atom2 := by
            rw [atom_name_of, ha2]; rfl
          simp only [stratify_residue_hbonds, ha1, ha2, hr, Except.ok.injEq,
            Prod.mk.injEq] at h
          obtain ⟨h1, h2, h3⟩ := h
          have hss_iff : hb_is_ss hbond ↔ (atom1 ∉ backbone_atoms ∧ atom2 ∉ backbone_atoms) := by
            rw [hb_is_ss, e1, e2]
          have hsb_iff : hb_is_sb hbond ↔
              ((atom1 ∉ backbone_atoms ∧ atom2 ∈ backbone_atoms) ∨
                (atom1 ∈ backbone_atoms ∧ atom2 ∉ backbone_atoms)) := by
            rw [hb_is_sb, e1, e2]
          have hbb_iff : hb_is_bb hbond ↔ (atom1 ∈ backbone_atoms ∧ atom2 ∈ backbone_atoms) := by
            rw [hb_is_bb, e1, e2]
          refine ⟨⟨?_, ?_, ?_⟩, ?_, ?_⟩
          · rw [← h1, List.filter_cons, ihf1]
            by_cases hc : atom1 ∉ backbone_atoms ∧ atom2 ∉ backbone_atoms
            · rw [if_pos hc]
              have : decide (hb_is_ss hbond) = true := decide_eq_true (hss_iff.mpr hc)
              simp only [this, if_true, List.map_cons]
              rfl
            · rw [if_neg hc]
              have : decide (hb_is_ss hbond) = false :=
                decide_eq_false (fun hh => hc (hss_iff.mp hh))
              simp only [this, Bool.false_eq_true, if_false]
          · rw [← h2, List.filter_cons, ihf2]
            by_cases hc : (atom1 ∉ backbone_atoms ∧ atom2 ∈ backbone_atoms) ∨
                (atom1 ∈ backbone_atoms ∧ atom2 ∉ backbone_atoms)
            · rw [if_pos hc]
              have : decide (hb_is_sb hbond) = true := decide_eq_true (hsb_iff.mpr hc)
              simp only [this, if_true, List.map_cons]
              rfl
            · rw [if_neg hc]
              have : decide (hb_is_sb hbond) = false :=
                decide_eq_false (fun hh => hc (hsb_iff.mp hh))
              simp only [this, Bool.false_eq_true, if_false]
          · rw [← h3, List.filter_cons, ihf3]
            by_cases hc : atom1 ∈ backbone_atoms ∧ atom2 ∈ backbone_atoms
            · rw [if_pos hc]
              have : decide (hb_is_bb hbond) = true := decide_eq_true (hbb_iff.mpr hc)
              simp only [this, if_true, List.map_cons]
              rfl
            · rw [if_neg hc]
              have : decide (hb_is_bb hbond) = false :=
                decide_eq_false (fun hh => hc (hbb_iff.mp hh))
              simp only [this, Bool.false_eq_true, if_false]
          · rw [← h1, ← h2, ← h3]
            by_cases hm1 : atom1 ∈ backbone_atoms <;> by_cases hm2 : atom2 ∈ backbone_atoms
            · rw [if_neg (by tauto), if_neg (by tauto), if_pos (by tauto)]
              simp only [List.length_cons, List.length]
              omega
            · rw [if_neg (by tauto), if_pos (by tauto), if_neg (by tauto)]
              simp only [List.length_cons, List.length]
              omega
            · rw [if_neg (by tauto), if_pos (by tauto), if_neg (by tauto)]
              simp only [List.length_cons, List.length]
              omega
            · rw [if_pos (by tauto), if_neg (by tauto), if_neg (by tauto)]
              simp only [List.length_cons, List.length]
              omega
          · intro hb _
            exact hb_class_exactly_one hb

/-- Witness for C3 at the scenario input of the spec: one residue-residue
hbond with atom names NZ and CG lands exactly in hbss. -/
theorem stratify_residue_hbonds_partition_witness :
    stratify_residue_hbonds [⟨1, "A:LYS:10:NZ:5", "B:PHE:20:CG:50", "hb"⟩] =
        .ok ([⟨1, "A:LYS:10:NZ:5", "B:PHE:20:CG:50", "hbss"⟩], [], []) ∧
      (([⟨1, "A:LYS:10:NZ:5", "B:PHE:20:CG:50", "hbss"⟩] : List ContactRec) =
          (([⟨1, "A:LYS:10:NZ:5", "B:PHE:20:CG:50", "hb"⟩] : List ContactRec).filter
            (fun hb => hb_is_ss hb)).map as_hbss ∧
        ([] : List ContactRec) =
          (([⟨1, "A:LYS:10:NZ:5", "B:PHE:20:CG:50", "hb"⟩] : List ContactRec).filter
            (fun hb => hb_is_sb hb)).map as_hbsb ∧
        ([] : List ContactRec) =
          (([⟨1, "A:LYS:10:NZ:5", "B:PHE:20:CG:50", "hb"⟩] : List ContactRec).filter
            (fun hb => hb_is_bb hb)).map as_hbbb) ∧
      ([⟨1, "A:LYS:10:NZ:5", "B:PHE:20:CG:50", "hbss"⟩] : List ContactRec).length +
          ([] : List ContactRec).length + ([] : List ContactRec).length =
        ([⟨1, "A:LYS:10:NZ:5", "B:PHE:20:CG:50", "hb"⟩] : List ContactRec).length ∧
      ∀ hb ∈ ([⟨1, "A:LYS:10:NZ:5", "B:PHE:20:CG:50", "hb"⟩] : List ContactRec),
        (hb_is_ss hb ∧ ¬hb_is_sb hb ∧ ¬hb_is_bb hb) ∨
          (¬hb_is_ss hb ∧ hb_is_sb hb ∧ ¬hb_is_bb hb) ∨
          (¬hb_is_ss hb ∧ ¬hb_is_sb hb ∧ hb_is_bb hb) :=
  ⟨rfl, stratify_residue_hbonds_partition _ _ _ _ rfl⟩

/-! ### Unfolding equations for the do-blocks -/

theorem calc_water_to_residues_map_eq (water_hbonds : List ContactRec) (solvent_resn : String) :
    calc_water_to_residues_map water_hbonds solvent_resn =
      (water_hbonds.foldlM (cwtr_step solvent_resn) ⟨none, none, [], []⟩).bind (fun st =>
        match st.frame_idx with
        | none => .error "UnboundLocalError: local variable frame_idx referenced before assignment"
        | some frame_idx =>
          .ok (frame_idx, st.water_to_residues,
            py_sorted pair_str_lt (st.solvent_bridges_raw.foldl
              (fun acc wpair =>
                if (wpair.1, wpair.2) ∈ acc ∨ (wpair.2, wpair.1) ∈ acc then acc
                else acc ++ [(wpair.1, wpair.2)])
              []))) := rfl

theorem stratify_water_bridge_eq (water_hbonds : List ContactRec) (solvent_resn : String) :
    stratify_water_bridge water_hbonds solvent_resn =
      (calc_water_to_residues_map water_hbonds solvent_resn).bind (fun triple =>
        .ok (py_sorted wb_lt (triple.2.1.foldl
          (fun acc entry =>
            pyset_update acc
              (water_bridge_records triple.1 entry.1 (py_sorted py_str_lt entry.2)))
          []))) := rfl

theorem stratify_extended_water_bridge_eq (water_hbonds : List ContactRec)
    (solvent_resn : String) :
    stratify_extended_water_bridge water_hbonds solvent_resn =
      (calc_water_to_residues_map water_hbonds solvent_resn).bind (fun triple =>
        .ok ((py_sorted wb2_lt (triple.2.2.foldl
            (fun acc wpair => pyset_update acc (wb2_bridge_records triple.1 triple.2.1 wpair))
            [])).foldl (fun wb2 entry => wb2 ++ [entry]) [])) := rfl

theorem stratify_hbond_subtypes_eq (hbonds : List ContactRec) (solvent_resn : String) :
    stratify_hbond_subtypes hbonds solvent_resn =
      (stratify_residue_hbonds (residue_vs_water_hbonds hbonds solvent_resn).1).bind (fun t =>
        (stratify_water_bridge hbonds solvent_resn).bind (fun wb =>
          (stratify_extended_water_bridge hbonds solvent_resn).bind (fun wb2 =>
            .ok (((t.1 ++ t.2.1 ++ t.2.2).map HRecord.hb4) ++ (wb.map HRecord.wb5) ++
              (wb2.map HRecord.wb26))))) := rfl

/-! ### Claim C10: residue-residue hbonds confuse the water-map helper -/

theorem stratify_residue_hbonds_ok_of_wellformed :
    ∀ l : List ContactRec,
      (∀ hb ∈ l,
        4 ≤ (py_split ':' hb.atom1_label).length ∧ 4 ≤ (py_split ':' hb.atom2_label).length) →
      ∃ t, stratify_residue_hbonds l = .ok t := by
  intro l
  induction l with
  | nil => intro _; exact ⟨([], [], []), rfl⟩
  | cons hb rest ih =>
    intro hwf
    obtain ⟨h1, h2⟩ := hwf hb (List.mem_cons_self _ _)
    obtain ⟨⟨x, y, z⟩, hrest⟩ := ih (fun u hu => hwf u (List.mem_cons_of_mem _ hu))
    obtain ⟨a1, ha1⟩ : ∃ a, atom_name_field hb.atom1_label = some a := by
      rw [atom_name_field]
      cases hg : (py_split ':' hb.atom1_label).get? 3 with
      | none => rw [List.get?_eq_none] at hg; omega
      | some a => exact ⟨a, rfl⟩
    obtain ⟨a2, ha2⟩ : ∃ a, atom_name_field hb.atom2_label = some a := by
      rw [atom_name_field]
      cases hg : (py_split ':' hb.atom2_label).get? 3 with
      | none => rw [List.get?_eq_none] at hg; omega
      | some a => exact ⟨a, rfl⟩
    refine ⟨(if a1 ∉ backbone_atoms ∧ a2 ∉ backbone_atoms then
        { hb with itype := "hbss" } :: x else x,
      if (a1 ∉ backbone_atoms ∧ a2 ∈ backbone_atoms) ∨
          (a1 ∈ backbone_atoms ∧ a2 ∉ backbone_atoms) then
        { hb with itype := "hbsb" } :: y else y,
      if a1 ∈ backbone_atoms ∧ a2 ∈ backbone_atoms then
        { hb with itype := "hbbb" } :: z else z), ?_⟩
    simp only [stratify_residue_hbonds, ha1, ha2, hrest]

theorem dict_set_add_noop :
    ∀ (m : List (String × List String)) (water protein : String) (S : List String),
      dict_lookup water m = some S → protein ∈ S → dict_set_add m water protein = m := by
  intro m
  induction m with
  | nil => intro w p S h _; simp [dict_lookup] at h
  | cons kv rest ih =>
    intro w p S h hp
    obtain ⟨k, v⟩ := kv
    by_cases hk : k = w
    · subst hk
      rw [dict_lookup, if_pos rfl] at h
      obtain rfl : v = S := by injection h
      simp [dict_set_add, pyset_add, hp]
    · rw [dict_lookup, if_neg hk] at h
      simp only [dict_set_add, if_neg hk]
      rw [ih w p S h hp]

/-- Claim C10: stratify_hbond_subtypes hands the full hbonds list to the
water-bridge builders, so (1) whenever the first hbond is residue-residue
(the solvent name occurs in neither label) the helper reads the unassigned
local water and the whole call fails with an unbound-local error, and
(2) a residue-residue hbond processed after a water-involving one merely
re-adds the previous (water, protein) pair, a no-op on the map. -/
theorem stratify_residue_first_unbound_water :
    (∀ (hbond : ContactRec) (rest : List ContactRec) (solvent_resn : String),
        py_in solvent_resn hbond.atom1_label = false →
        py_in solvent_resn hbond.atom2_label = false →
        (∀ hb ∈ hbond :: rest,
          4 ≤ (py_split ':' hb.atom1_label).length ∧ 4 ≤ (py_split ':' hb.atom2_label).length) →
        stratify_hbond_subtypes (hbond :: rest) solvent_resn =
          .error "UnboundLocalError: local variable water referenced before assignment") ∧
      (∀ (solvent_resn : String) (st : CwtrState) (hbond : ContactRec)
          (water protein : String) (S : List String),
        st.water_protein = some (water, protein) →
        dict_lookup water st.water_to_residues = some S →
        protein ∈ S →
        py_in solvent_resn hbond.atom1_label = false →
        py_in solvent_resn hbond.atom2_label = false →
        cwtr_step solvent_resn st hbond = .ok { st with frame_idx := some hbond.frame_idx }) := by
  constructor
  · intro hbond rest solvent_resn h1 h2 hwf
    have hpart := residue_vs_water_substring_partition (hbond :: rest) solvent_resn
    obtain ⟨⟨x, y, z⟩, hok⟩ :=
      stratify_residue_hbonds_ok_of_wellformed
        ((hbond :: rest).filter (fun hb => !(is_water_hbond solvent_resn hb)))
        (fun u hu => hwf u (List.mem_filter.mp hu).1)
    have hok2 : stratify_residue_hbonds
        (residue_vs_water_hbonds (hbond :: rest) solvent_resn).1 = .ok (x, y, z) := by
      rw [hpart]
      exact hok
    have hstep : cwtr_step solvent_resn ⟨none, none, [], []⟩ hbond =
        .error "UnboundLocalError: local variable water referenced before assignment" := by
      unfold cwtr_step
      rw [h1, h2]
      simp
    have hcalc : calc_water_to_residues_map (hbond :: rest) solvent_resn =
        .error "UnboundLocalError: local variable water referenced before assignment" := by
      rw [calc_water_to_residues_map_eq, List.foldlM_cons, hstep]
      rfl
    have hwb : stratify_water_bridge (hbond :: rest) solvent_resn =
        .error "UnboundLocalError: local variable water referenced before assignment" := by
      rw [stratify_water_bridge_eq, hcalc]
      rfl
    rw [stratify_hbond_subtypes_eq, hok2]
    simp only [Except.bind]
    rw [hwb]
  · intro solvent_resn st hbond water protein S hwp hlook hmem h1 h2
    unfold cwtr_step
    rw [h1, h2]
    simp only [Bool.false_and, Bool.and_false, Bool.not_false, Bool.true_and, Bool.and_true,
      Bool.false_eq_true, if_false, hwp]
    rw [dict_set_add_noop st.water_to_residues water protein S hlook hmem, ← hwp]

/-- Witness for C10: a single residue-residue hbond makes the stratifier
fail with the unbound-local error, and one residue-residue step from a
state that has already seen a water hbond leaves the map unchanged. -/
theorem stratify_residue_first_unbound_water_witness :
    py_in "TIP3" "A:ALA:1:CA:2" = false ∧
      stratify_hbond_subtypes [⟨0, "A:ALA:1:CA:2", "B:GLY:2:CB:3", "hb"⟩] "TIP3" =
        .error "UnboundLocalError: local variable water referenced before assignment" ∧
      cwtr_step "TIP3"
          ⟨some 5, some ("W:TIP3:1:OH2:9", "A:ALA:1:CA:2"),
            [("W:TIP3:1:OH2:9", ["A:ALA:1:CA:2"])], []⟩
          ⟨7, "A:ALA:1:CA:2", "B:GLY:2:CB:3", "hb"⟩ =
        .ok ⟨some 7, some ("W:TIP3:1:OH2:9", "A:ALA:1:CA:2"),
          [("W:TIP3:1:OH2:9", ["A:ALA:1:CA:2"])], []⟩ :=
  ⟨rfl,
    stratify_residue_first_unbound_water.1 ⟨0, "A:ALA:1:CA:2", "B:GLY:2:CB:3", "hb"⟩ [] "TIP3"
      rfl rfl (by decide),
    stratify_residue_first_unbound_water.2 "TIP3"
      ⟨some 5, some ("W:TIP3:1:OH2:9", "A:ALA:1:CA:2"),
        [("W:TIP3:1:OH2:9", ["A:ALA:1:CA:2"])], []⟩
      ⟨7, "A:ALA:1:CA:2", "B:GLY:2:CB:3", "hb"⟩ "W:TIP3:1:OH2:9" "A:ALA:1:CA:2"
      ["A:ALA:1:CA:2"] rfl rfl (by decide) rfl rfl⟩

/-! ### Claim C4: direct water bridges -/

theorem mem_water_bridge_records (frame_idx : Nat) (water : String) (atoms : List String)
    (r : WbRec) :
    r ∈ water_bridge_records frame_idx water (py_sorted py_str_lt atoms) ↔
      (r.res_atom1 ∈ atoms ∧ r.res_atom2 ∈ atoms ∧ py_str_lt r.res_atom1 r.res_atom2 = true ∧
        r.water = water ∧ r.frame_idx = frame_idx ∧ r.itype = "wb") := by
  unfold water_bridge_records
  rw [List.mem_map]
  constructor
  · rintro ⟨p, hp, rfl⟩
    rw [List.mem_filter] at hp
    obtain ⟨hp_mem, hp_ne⟩ := hp
    have hne : p.1 ≠ p.2 := by simpa using hp_ne
    have hp_mem' : (p.1, p.2) ∈ combinations2 (py_sorted py_str_lt atoms) := by
      rw [Prod.mk.eta]
      exact hp_mem
    have hchar := (combinations2_sorted_mem py_str_lt_lin (py_sorted py_str_lt atoms)
      (py_sorted_sorted py_str_lt_lin atoms) p.1 p.2).mp ⟨hp_mem', hne⟩
    rw [mem_py_sorted, mem_py_sorted] at hchar
    exact ⟨hchar.1, hchar.2.1, hchar.2.2, rfl, rfl, rfl⟩
  · rintro ⟨h1, h2, hlt, hw, hf, hi⟩
    refine ⟨(r.res_atom1, r.res_atom2), ?_, ?_⟩
    · rw [List.mem_filter]
      have hne : r.res_atom1 ≠ r.res_atom2 := by
        intro heq
        rw [heq, py_str_lt_lin.irrefl] at hlt
        exact absurd hlt Bool.false_ne_true
      constructor
      · exact ((combinations2_sorted_mem py_str_lt_lin (py_sorted py_str_lt atoms)
          (py_sorted_sorted py_str_lt_lin atoms) r.res_atom1 r.res_atom2).mpr
          ⟨(mem_py_sorted _ _ _).mpr h1, (mem_py_sorted _ _ _).mpr h2, hlt⟩).1
      · rw [decide_eq_true_eq]
        exact hne
    · obtain ⟨f, a, w, b, t⟩ := r
      simp only at hw hf hi
      rw [hw, hf, hi]

/-- Claim C4: when the water map is built successfully, the direct
water-bridge builder returns a sorted, duplicate-free list that contains
the record (frame_idx, a1, w, a2, wb) exactly when some map entry for
water w contains both a1 and a2 with a1 before a2 in string order: one
record per unordered pair of distinct bridged atoms of each water. -/
theorem stratify_water_bridge_spec (water_hbonds : List ContactRec) (solvent_resn : String)
    (frame_idx : Nat) (water_to_residues : List (String × List String))
    (solvent_bridges : List (String × String))
    (h : calc_water_to_residues_map water_hbonds solvent_resn =
      .ok (frame_idx, water_to_residues, solvent_bridges)) :
    ∃ wb, stratify_water_bridge water_hbonds solvent_resn = .ok wb ∧
      List.Sorted (fun r s => wb_le r s = true) wb ∧
      wb.Nodup ∧
      ∀ r : WbRec, r ∈ wb ↔
        ∃ S, (r.water, S) ∈ water_to_residues ∧ r.res_atom1 ∈ S ∧ r.res_atom2 ∈ S ∧
          py_str_lt r.res_atom1 r.res_atom2 = true ∧ r.frame_idx = frame_idx ∧
          r.itype = "wb" := by
  have hgoal : stratify_water_bridge water_hbonds solvent_resn =
      .ok (py_sorted wb_lt (List.foldl
        (fun acc entry =>
          pyset_update acc (water_bridge_records frame_idx entry.1 (py_sorted py_str_lt entry.2)))
        [] water_to_residues)) := by
    rw [stratify_water_bridge_eq, h]
    rfl
  refine ⟨_, hgoal, ?_, ?_, ?_⟩
  · exact py_sorted_sorted wb_lt_lin _
  · exact py_sorted_nodup _ _ (nodup_foldl_pyset_update _ _ [] List.nodup_nil)
  · intro r
    rw [mem_py_sorted,
      mem_foldl_pyset_update
        (fun entry => water_bridge_records frame_idx entry.1 (py_sorted py_str_lt entry.2))
        water_to_residues [] r]
    simp only [List.not_mem_nil, false_or]
    constructor
    · rintro ⟨entry, hentry, hrec⟩
      rw [mem_water_bridge_records] at hrec
      obtain ⟨h1, h2, hlt, hw, hf, hi⟩ := hrec
      refine ⟨entry.2, ?_, h1, h2, hlt, hf, hi⟩
      rw [hw, Prod.mk.eta]
      exact hentry
    · rintro ⟨S, hS, h1, h2, hlt, hf, hi⟩
      refine ⟨(r.water, S), hS, ?_⟩
      rw [mem_water_bridge_records]
      exact ⟨h1, h2, hlt, rfl, hf, hi⟩

/-- Witness for C4 at the scenario input of the spec: two hbonds
res1--water and res2--water with the same water produce exactly one wb
record pairing res1 with res2. -/
theorem stratify_water_bridge_spec_witness :
    calc_water_to_residues_map
        [⟨3, "A:ALA:1:N:11", "W:TIP3:8:OH2:91", "hb"⟩,
         ⟨3, "W:TIP3:8:OH2:91", "B:GLY:2:O:12", "hb"⟩] "TIP3" =
      .ok (3, [("W:TIP3:8:OH2:91", ["A:ALA:1:N:11", "B:GLY:2:O:12"])], []) ∧
    ∃ wb, stratify_water_bridge
        [⟨3, "A:ALA:1:N:11", "W:TIP3:8:OH2:91", "hb"⟩,
         ⟨3, "W:TIP3:8:OH2:91", "B:GLY:2:O:12", "hb"⟩] "TIP3" = .ok wb ∧
      List.Sorted (fun r s => wb_le r s = true) wb ∧
      wb.Nodup ∧
      ∀ r : WbRec, r ∈ wb ↔
        ∃ S, (r.water, S) ∈ [("W:TIP3:8:OH2:91", ["A:ALA:1:N:11", "B:GLY:2:O:12"])] ∧
          r.res_atom1 ∈ S ∧ r.res_atom2 ∈ S ∧
          py_str_lt r.res_atom1 r.res_atom2 = true ∧ r.frame_idx = 3 ∧ r.itype = "wb" :=
  ⟨rfl, stratify_water_bridge_spec _ _ _ _ _ rfl⟩

/-! ### Claim C5: extended water bridges -/

theorem mem_wb2_bridge_records (frame_idx : Nat) (water_to_residues : List (String × List String))
    (wpair : String × String) (r : Wb2Rec) :
    r ∈ wb2_bridge_records frame_idx water_to_residues wpair ↔
      ∃ S1 S2, dict_lookup wpair.1 water_to_residues = some S1 ∧
        dict_lookup wpair.2 water_to_residues = some S2 ∧
        r.atom1 ∈ S1 ∧ r.atom2 ∈ S2 ∧ r.water1 = wpair.1 ∧ r.water2 = wpair.2 ∧
        r.frame_idx = frame_idx ∧ r.itype = "wb2" := by
  unfold wb2_bridge_records
  cases hl1 : dict_lookup wpair.1 water_to_residues with
  | none => simp
  | some l1 =>
    cases hl2 : dict_lookup wpair.2 water_to_residues with
    | none => simp
    | some l2 =>
      unfold cross_wb2
      simp only [List.mem_flatMap, List.mem_map, Option.some.injEq]
      constructor
      · rintro ⟨a1, ha1, a2, ha2, rfl⟩
        exact ⟨l1, l2, rfl, rfl, ha1, ha2, rfl, rfl, rfl, rfl⟩
      · rintro ⟨S1, S2, hS1, hS2, h1, h2, hw1, hw2, hf, hi⟩
        subst hS1
        subst hS2
        refine ⟨r.atom1, h1, r.atom2, h2, ?_⟩
        obtain ⟨f, a, w1, w2, b, t⟩ := r
        simp only at hw1 hw2 hf hi
        rw [hw1, hw2, hf, hi]

/-- Claim C5: when the water map is built successfully, the extended
water-bridge builder returns a duplicate-free list containing exactly the
records (frame_idx, a1, w1, w2, a2, wb2) for which (w1, w2) is a listed
solvent bridge, both waters are keys of the map, a1 lies in water1's
residue set and a2 in water2's: the full cross product per bridge, and
nothing for bridges with a missing water. -/
theorem stratify_extended_water_bridge_spec (water_hbonds : List ContactRec)
    (solvent_resn : String) (frame_idx : Nat)
    (water_to_residues : List (String × List String))
    (solvent_bridges : List (String × String))
    (h : calc_water_to_residues_map water_hbonds solvent_resn =
      .ok (frame_idx, water_to_residues, solvent_bridges)) :
    ∃ wb2, stratify_extended_water_bridge water_hbonds solvent_resn = .ok wb2 ∧
      wb2.Nodup ∧
      ∀ r : Wb2Rec, r ∈ wb2 ↔
        ((r.water1, r.water2) ∈ solvent_bridges ∧
          ∃ S1 S2, dict_lookup r.water1 water_to_residues = some S1 ∧
            dict_lookup r.water2 water_to_residues = some S2 ∧
            r.atom1 ∈ S1 ∧ r.atom2 ∈ S2 ∧ r.frame_idx = frame_idx ∧
            r.itype = "wb2") := by
  have hgoal : stratify_extended_water_bridge water_hbonds solvent_resn =
      .ok ((py_sorted wb2_lt (List.foldl
        (fun acc wpair => pyset_update acc (wb2_bridge_records frame_idx water_to_residues wpair))
        [] solvent_bridges)).foldl (fun wb2 entry => wb2 ++ [entry]) []) := by
    rw [stratify_extended_water_bridge_eq, h]
    rfl
  rw [foldl_append_singleton, List.nil_append] at hgoal
  refine ⟨_, hgoal, ?_, ?_⟩
  · exact py_sorted_nodup _ _ (nodup_foldl_pyset_update _ _ [] List.nodup_nil)
  · intro r
    rw [mem_py_sorted,
      mem_foldl_pyset_update
        (fun wpair => wb2_bridge_records frame_idx water_to_residues wpair)
        solvent_bridges [] r]
    simp only [List.not_mem_nil, false_or]
    constructor
    · rintro ⟨wpair, hw, hrec⟩
      rw [mem_wb2_bridge_records] at hrec
      obtain ⟨S1, S2, hS1, hS2, h1, h2, hw1, hw2, hf, hi⟩ := hrec
      refine ⟨?_, S1, S2, ?_, ?_, h1, h2, hf, hi⟩
      · rw [hw1, hw2, Prod.mk.eta]
        exact hw
      · rw [hw1]
        exact hS1
      · rw [hw2]
        exact hS2
    · rintro ⟨hw, S1, S2, hS1, hS2, h1, h2, hf, hi⟩
      refine ⟨(r.water1, r.water2), hw, ?_⟩
      rw [mem_wb2_bridge_records]
      exact ⟨S1, S2, hS1, hS2, h1, h2, rfl, rfl, hf, hi⟩

/-- Witness for C5: res1--water1, water2--res2 and a water1--water2
bridge yield the characterized wb2 list. -/
theorem stratify_extended_water_bridge_spec_witness :
    calc_water_to_residues_map
        [⟨2, "A:ALA:1:N:11", "W:TIP3:8:OH2:91", "hb"⟩,
         ⟨2, "W:TIP3:9:OH2:95", "B:GLY:2:O:12", "hb"⟩,
         ⟨2, "W:TIP3:8:OH2:91", "W:TIP3:9:OH2:95", "hb"⟩] "TIP3" =
      .ok (2, [("W:TIP3:8:OH2:91", ["A:ALA:1:N:11"]), ("W:TIP3:9:OH2:95", ["B:GLY:2:O:12"])],
        [("W:TIP3:8:OH2:91", "W:TIP3:9:OH2:95")]) ∧
    ∃ wb2, stratify_extended_water_bridge
        [⟨2, "A:ALA:1:N:11", "W:TIP3:8:OH2:91", "hb"⟩,
         ⟨2, "W:TIP3:9:OH2:95", "B:GLY:2:O:12", "hb"⟩,
         ⟨2, "W:TIP3:8:OH2:91", "W:TIP3:9:OH2:95", "hb"⟩] "TIP3" = .ok wb2 ∧
      wb2.Nodup ∧
      ∀ r : Wb2Rec, r ∈ wb2 ↔
        ((r.water1, r.water2) ∈ [("W:TIP3:8:OH2:91", "W:TIP3:9:OH2:95")] ∧
          ∃ S1 S2, dict_lookup r.water1
              [("W:TIP3:8:OH2:91", ["A:ALA:1:N:11"]),
               ("W:TIP3:9:OH2:95", ["B:GLY:2:O:12"])] = some S1 ∧
            dict_lookup r.water2
              [("W:TIP3:8:OH2:91", ["A:ALA:1:N:11"]),
               ("W:TIP3:9:OH2:95", ["B:GLY:2:O:12"])] = some S2 ∧
            r.atom1 ∈ S1 ∧ r.atom2 ∈ S2 ∧ r.frame_idx = 2 ∧ r.itype = "wb2") :=
  ⟨rfl, stratify_extended_water_bridge_spec _ _ _ _ _ rfl⟩

/-! ### Claim C7: the folded angle test is orientation independent -/

theorem np_dot_vneg_left (n v : Vec3) : np_dot (vneg n) v = -(np_dot n v) := by
  unfold np_dot vneg
  ring

theorem calc_vector_length_vneg (n : Vec3) :
    calc_vector_length (vneg n) = calc_vector_length n := by
  unfold calc_vector_length
  congr 1
  unfold np_dot vneg
  ring

theorem math_degrees_pi_sub (r : ℝ) : math_degrees (Real.pi - r) = 180 - math_degrees r := by
  unfold math_degrees
  field_simp
  ring

theorem calc_angle_vneg_left (n v : Vec3) :
    calc_angle_between_vectors (vneg n) v = 180 - calc_angle_between_vectors n v := by
  unfold calc_angle_between_vectors
  rw [np_dot_vneg_left, calc_vector_length_vneg, neg_div, Real.arccos_neg, math_degrees_pi_sub]

theorem fold_angle_sub_180 (theta : ℝ) : fold_angle (180 - theta) = fold_angle theta := by
  unfold fold_angle
  have e1 : (180 - theta) - 0 = -(theta - 180) := by ring
  have e2 : (180 - theta) - 180 = -(theta - 0) := by ring
  rw [e1, e2, abs_neg, abs_neg, min_comm]

/-- Claim C7: for nonzero plane normal n and centroid-to-cation vector v,
the folded angle computed with n and with -n agree, so the pi-cation
angle gate is orientation independent. -/
theorem folded_angle_orientation_independent (n v : Vec3)
    (hn : n ≠ ⟨0, 0, 0⟩) (hv : v ≠ ⟨0, 0, 0⟩) :
    fold_angle (calc_angle_between_vectors (vneg n) v) =
      fold_angle (calc_angle_between_vectors n v) := by
  rw [calc_angle_vneg_left, fold_angle_sub_180]

/-- Witness for C7 at n = (0,0,1), v = (1,0,0). -/
theorem folded_angle_orientation_independent_witness :
    ((⟨0, 0, 1⟩ : Vec3) ≠ ⟨0, 0, 0⟩) ∧ ((⟨1, 0, 0⟩ : Vec3) ≠ ⟨0, 0, 0⟩) ∧
      fold_angle (calc_angle_between_vectors (vneg ⟨0, 0, 1⟩) ⟨1, 0, 0⟩) =
        fold_angle (calc_angle_between_vectors ⟨0, 0, 1⟩ ⟨1, 0, 0⟩) :=
  ⟨by simp, by simp,
    folded_angle_orientation_independent ⟨0, 0, 1⟩ ⟨1, 0, 0⟩ (by simp) (by simp)⟩

/-! ### Claim C6: the accept/reject gates of the pi-cation detector -/

/-- Claim C6: a grouped candidate with exactly 3 aromatic atoms (sorted
triplet a1 < a2 < a3) is rejected, contributing no records, exactly when
the cation-to-centroid distance exceeds 6.0 or the folded
normal-to-cation angle exceeds 60 degrees. -/
theorem compute_pi_cation_gate_iff (coords : String → Vec3) (frame_idx : Nat)
    (pi_cation_aromatic_res_key : String) (aromatic_atom_labels : List String)
    (arom_atom1_label arom_atom2_label arom_atom3_label : String)
    (hsort : py_sorted py_str_lt aromatic_atom_labels =
      [arom_atom1_label, arom_atom2_label, arom_atom3_label]) :
    process_pi_cation_group coords frame_idx pi_cation_aromatic_res_key aromatic_atom_labels = []
      ↔ calc_geom_distance (coords (cation_label_of_key pi_cation_aromatic_res_key))
            (calc_geom_centroid (coords arom_atom1_label) (coords arom_atom2_label)
              (coords arom_atom3_label)) > DISTANCE_CUTOFF ∨
          fold_angle (calc_angle_between_vectors
            (calc_geom_normal_vector (coords arom_atom1_label) (coords arom_atom2_label)
              (coords arom_atom3_label))
            (points_to_vector
              (calc_geom_centroid (coords arom_atom1_label) (coords arom_atom2_label)
                (coords arom_atom3_label))
              (coords (cation_label_of_key pi_cation_aromatic_res_key)))) > ANGLE_CUTOFF := by
  have hlen : aromatic_atom_labels.length = 3 := by
    have hl := length_py_sorted py_str_lt aromatic_atom_labels
    rw [hsort] at hl
    simpa using hl.symm
  simp only [process_pi_cation_group, hsort, hlen]
  rw [if_neg (by intro hh; exact hh rfl)]
  by_cases hd : calc_geom_distance (coords (cation_label_of_key pi_cation_aromatic_res_key))
      (calc_geom_centroid (coords arom_atom1_label) (coords arom_atom2_label)
        (coords arom_atom3_label)) > DISTANCE_CUTOFF
  · rw [if_pos hd]
    simp [hd]
  · rw [if_neg hd]
    by_cases ha : fold_angle (calc_angle_between_vectors
        (calc_geom_normal_vector (coords arom_atom1_label) (coords arom_atom2_label)
          (coords arom_atom3_label))
        (points_to_vector
          (calc_geom_centroid (coords arom_atom1_label) (coords arom_atom2_label)
            (coords arom_atom3_label))
          (coords (cation_label_of_key pi_cation_aromatic_res_key)))) > ANGLE_CUTOFF
    · rw [if_pos ha]
      simp [ha]
    · rw [if_neg ha]
      simp [hd, ha]

/-- Witness for C6: with all atoms at the origin the angle is 90 degrees,
the folded angle exceeds 60, and the group is rejected. -/
theorem compute_pi_cation_gate_iff_witness :
    py_sorted py_str_lt ["A:PHE:1:CG:4", "A:PHE:1:CE1:2", "A:PHE:1:CE2:3"] =
        ["A:PHE:1:CE1:2", "A:PHE:1:CE2:3", "A:PHE:1:CG:4"] ∧
      (process_pi_cation_group (fun _ => ⟨0, 0, 0⟩) 0 "A:LYS:9:NZ:1:1"
          ["A:PHE:1:CG:4", "A:PHE:1:CE1:2", "A:PHE:1:CE2:3"] = []
        ↔ calc_geom_distance ((fun _ => (⟨0, 0, 0⟩ : Vec3)) (cation_label_of_key "A:LYS:9:NZ:1:1"))
              (calc_geom_centroid ((fun _ => (⟨0, 0, 0⟩ : Vec3)) "A:PHE:1:CE1:2")
                ((fun _ => (⟨0, 0, 0⟩ : Vec3)) "A:PHE:1:CE2:3")
                ((fun _ => (⟨0, 0, 0⟩ : Vec3)) "A:PHE:1:CG:4")) > DISTANCE_CUTOFF ∨
            fold_angle (calc_angle_between_vectors
              (calc_geom_normal_vector ((fun _ => (⟨0, 0, 0⟩ : Vec3)) "A:PHE:1:CE1:2")
                ((fun _ => (⟨0, 0, 0⟩ : Vec3)) "A:PHE:1:CE2:3")
                ((fun _ => (⟨0, 0, 0⟩ : Vec3)) "A:PHE:1:CG:4"))
              (points_to_vector
                (calc_geom_centroid ((fun _ => (⟨0, 0, 0⟩ : Vec3)) "A:PHE:1:CE1:2")
                  ((fun _ => (⟨0, 0, 0⟩ : Vec3)) "A:PHE:1:CE2:3")
                  ((fun _ => (⟨0, 0, 0⟩ : Vec3)) "A:PHE:1:CG:4"))
                ((fun _ => (⟨0, 0, 0⟩ : Vec3)) (cation_label_of_key "A:LYS:9:NZ:1:1")))) >
              ANGLE_CUTOFF) :=
  ⟨by decide,
    compute_pi_cation_gate_iff (fun _ => ⟨0, 0, 0⟩) 0 "A:LYS:9:NZ:1:1"
      ["A:PHE:1:CG:4", "A:PHE:1:CE1:2", "A:PHE:1:CE2:3"]
      "A:PHE:1:CE1:2" "A:PHE:1:CE2:3" "A:PHE:1:CG:4" (by decide)⟩

/-! ### Claim C1: the emitted triplet duplicates the second aromatic atom -/

/-- Claim C1 (evaluation of the code bug at an accepted group): cation
A:LYS:9:NZ:1 at (1/3, 1/3, 1) over a PHE ring with sorted triplet
CE1 < CE2 < CG at (1,0,0), (0,1,0), (0,0,0) passes both gates
(distance 1 <= 6, folded angle 0 <= 60), yet the three pc records
reference CE1, CE2 and CE2 again: the third distinct atom CG of the
sorted triplet is never emitted, so the records are not one per distinct
aromatic atom. -/
theorem pi_cation_emission_duplicates_atom2 :
    process_pi_cation_group
      (fun l : String =>
        if l = "A:LYS:9:NZ:1" then (⟨1/3, 1/3, 1⟩ : Vec3)
        else if l = "A:PHE:1:CE1:2" then ⟨1, 0, 0⟩
        else if l = "A:PHE:1:CE2:3" then ⟨0, 1, 0⟩
        else ⟨0, 0, 0⟩)
      7 "A:LYS:9:NZ:1:1" ["A:PHE:1:CG:4", "A:PHE:1:CE1:2", "A:PHE:1:CE2:3"] =
      [⟨7, "A:LYS:9:NZ:1", "A:PHE:1:CE1:2", "pc"⟩,
       ⟨7, "A:LYS:9:NZ:1", "A:PHE:1:CE2:3", "pc"⟩,
       ⟨7, "A:LYS:9:NZ:1", "A:PHE:1:CE2:3", "pc"⟩] := by
  have hsort : py_sorted py_str_lt ["A:PHE:1:CG:4", "A:PHE:1:CE1:2", "A:PHE:1:CE2:3"] =
      ["A:PHE:1:CE1:2", "A:PHE:1:CE2:3", "A:PHE:1:CG:4"] := by decide
  have hkey : cation_label_of_key "A:LYS:9:NZ:1:1" = "A:LYS:9:NZ:1" := by decide
  simp only [process_pi_cation_group, hsort, hkey]
  rw [if_neg (by decide)]
  have hdist : ¬(calc_geom_distance ⟨3⁻¹, 3⁻¹, 1⟩
      (calc_geom_centroid ⟨1, 0, 0⟩ ⟨0, 1, 0⟩ ⟨0, 0, 0⟩) > DISTANCE_CUTOFF) := by
    unfold calc_geom_distance calc_geom_centroid calc_vector_length np_dot vsub DISTANCE_CUTOFF
    norm_num [Real.sqrt_one]
  have hangle : ¬(fold_angle (calc_angle_between_vectors
      (calc_geom_normal_vector ⟨1, 0, 0⟩ ⟨0, 1, 0⟩ ⟨0, 0, 0⟩)
      (points_to_vector (calc_geom_centroid ⟨1, 0, 0⟩ ⟨0, 1, 0⟩ ⟨0, 0, 0⟩)
        ⟨3⁻¹, 3⁻¹, 1⟩)) > ANGLE_CUTOFF) := by
    have hval : calc_angle_between_vectors
        (calc_geom_normal_vector ⟨1, 0, 0⟩ ⟨0, 1, 0⟩ ⟨0, 0, 0⟩)
        (points_to_vector (calc_geom_centroid ⟨1, 0, 0⟩ ⟨0, 1, 0⟩ ⟨0, 0, 0⟩)
          ⟨3⁻¹, 3⁻¹, 1⟩) = 180 := by
      unfold calc_angle_between_vectors calc_geom_normal_vector np_cross points_to_vector
        calc_geom_centroid calc_vector_length np_dot vsub
      norm_num [Real.sqrt_one, Real.arccos_neg_one]
      unfold math_degrees
      field_simp
    rw [hval]
    unfold fold_angle ANGLE_CUTOFF
    norm_num
  have ne1 : ¬(("A:PHE:1:CE1:2" : String) = "A:LYS:9:NZ:1") := by decide
  have ne2 : ¬(("A:PHE:1:CE2:3" : String) = "A:LYS:9:NZ:1") := by decide
  have ne3 : ¬(("A:PHE:1:CE2:3" : String) = "A:PHE:1:CE1:2") := by decide
  have ne4 : ¬(("A:PHE:1:CG:4" : String) = "A:LYS:9:NZ:1") := by decide
  have ne5 : ¬(("A:PHE:1:CG:4" : String) = "A:PHE:1:CE1:2") := by decide
  have ne6 : ¬(("A:PHE:1:CG:4" : String) = "A:PHE:1:CE2:3") := by decide
  simp [ne1, ne2, ne3, ne4, ne5, ne6, hdist, hangle]
